import Mathlib

/-!
Verification development for the seotrove-sdk scheduling and synchronization
core. The definitions below are a shallow embedding, translated from the
TypeScript sources:

  * `src/src/types.ts`            — the data model (ContentApiResponse,
    ContentPage, ContentFetcherConfig, SyncResult);
  * `src/unnamed/part_001`        — the current ContentFetcher class
    (content-fetcher.ts: fetchContent, fetchPreviouslyPublishedContent,
    fetchAllContent, createFiles, syncContent, syncNewContentOnly,
    updateConfig, isFirstSyncPending);
  * `src/src/scheduler.ts`        — the ContentScheduler registry
    (addFetcher, removeFetcher, start, stop, startAll, stopAll).

External effects (HTTP transport, the FileManager filesystem capability,
wall-clock durations, Node's path module) are out of scope per the spec and
are modelled as explicit environments/oracles passed to the functions.
HTTP responses and parsed JSON bodies are modelled at the TypeScript type
level (a body either parses to a well-typed ContentApiResponse or the parse
throws). Log output is not modelled. Durations that only appear inside
human-readable messages are abstracted away from those messages.
-/

namespace Seotrove

/-- One fetched unit of content (types.ts, ContentPage). -/
structure ContentPage where
  urlPath : String
  title : String
  html : String
  deriving Repr, DecidableEq

/-- The fetch result unit (types.ts, ContentApiResponse). -/
structure ContentApiResponse where
  sitemapXml : String
  robotTxt : String
  pages : List ContentPage
  deriving Repr, DecidableEq

/-- Configuration of one content source (types.ts, ContentFetcherConfig). -/
structure ContentFetcherConfig where
  domain : String
  installId : String
  targetDirectory : String
  deriving Repr, DecidableEq

/-- Result of one synchronization attempt (types.ts, SyncResult). The
`errors` field is optional in the source (`errors?: string[]`), modelled as
an `Option`. -/
structure SyncResult where
  success : Bool
  message : String
  filesCreated : List String
  errors : Option (List String)
  deriving Repr, DecidableEq

/-- A partial configuration update, as accepted by
`updateConfig(newConfig: Partial<ContentFetcherConfig>)` in
content-fetcher.ts. A `none` field models an absent key of the partial
object. -/
structure ConfigPatch where
  domain : Option String
  installId : Option String
  targetDirectory : Option String
  deriving Repr, DecidableEq

/-- The object spread `{ ...this.config, ...newConfig }` of
content-fetcher.ts line 389: keys present in the patch overwrite, absent
keys retain the prior value. -/
def mergeConfig (cfg : ContentFetcherConfig) (p : ConfigPatch) : ContentFetcherConfig :=
  { domain := p.domain.getD cfg.domain
    installId := p.installId.getD cfg.installId
    targetDirectory := p.targetDirectory.getD cfg.targetDirectory }

/-- View of a full config as a patch in which every key is present; this is
what `ContentScheduler.addFetcher` passes to `updateConfig`. -/
def patchOfConfig (cfg : ContentFetcherConfig) : ConfigPatch :=
  { domain := some cfg.domain
    installId := some cfg.installId
    targetDirectory := some cfg.targetDirectory }

/-! ## HTTP layer

`fetchContent` / `fetchPreviouslyPublishedContent` see the network through
`fetch(url)`. We model the outcome of that call as data: either the fetch
promise rejects with a message, or it resolves to a response, of which the
code observes `ok`, `status`, `statusText`, and the JSON body. The body is
observed in two ways in the source: on the non-ok path it is parsed with
`response.json().catch(() => ({}))` and only its `error` field is read
(`jsonErrorField`, `none` when parsing fails or the field is absent); on
the ok path it is parsed as a `ContentApiResponse` (`body`, an error when
`response.json()` rejects). -/
structure HttpResponse where
  ok : Bool
  status : Nat
  statusText : String
  jsonErrorField : Option String
  body : Except String ContentApiResponse

/-- The empty ContentBundle literal `{ sitemapXml: '', robotTxt: '', pages: [] }`. -/
def emptyBundle : ContentApiResponse :=
  { sitemapXml := "", robotTxt := "", pages := [] }

/-- The recognized empty-content sentinel message of the remote API. -/
def noPagesSentinel : String := "No generated pages to publish."

/-- Whether a fetch-layer result is a FetchError. -/
def isFetchError : Except String ContentApiResponse → Bool
  | .error _ => true
  | .ok _ => false

namespace ContentFetcher

/-- content-fetcher.ts lines 19-49 (`fetchContent`): fetch the new-content
endpoint. A 404 whose parsed body carries the sentinel error message is the
normal "nothing new" outcome and yields the empty bundle; any other non-ok
status, a network failure, or a body parse failure is a FetchError whose
message is wrapped with the "Failed to fetch new content" prefix by the
surrounding catch. -/
def fetchContent (resp : Except String HttpResponse) : Except String ContentApiResponse :=
  match resp with
  | .error msg => .error ("Failed to fetch new content: " ++ msg)
  | .ok r =>
    if r.ok = false then
      if r.status = 404 ∧ r.jsonErrorField = some noPagesSentinel then
        .ok emptyBundle
      else
        .error ("Failed to fetch new content: API request failed: "
          ++ toString r.status ++ " " ++ r.statusText)
    else
      match r.body with
      | .ok data => .ok data
      | .error m => .error ("Failed to fetch new content: " ++ m)

/-- content-fetcher.ts lines 51-81 (`fetchPreviouslyPublishedContent`): the
same contract as `fetchContent` against the previously-published endpoint,
with its own message prefix. -/
def fetchPreviouslyPublishedContent (resp : Except String HttpResponse) :
    Except String ContentApiResponse :=
  match resp with
  | .error msg => .error ("Failed to fetch previously published content: " ++ msg)
  | .ok r =>
    if r.ok = false then
      if r.status = 404 ∧ r.jsonErrorField = some noPagesSentinel then
        .ok emptyBundle
      else
        .error ("Failed to fetch previously published content: API request failed: "
          ++ toString r.status ++ " " ++ r.statusText)
    else
      match r.body with
      | .ok data => .ok data
      | .error m => .error ("Failed to fetch previously published content: " ++ m)

/-- content-fetcher.ts lines 95-101: `Promise.allSettled` branch handling —
a fulfilled branch contributes its value, a rejected branch contributes the
empty bundle. -/
def settledValueOrEmpty : Except String ContentApiResponse → ContentApiResponse
  | .ok v => v
  | .error _ => emptyBundle

/-- content-fetcher.ts lines 112-116: the merge of the two bundles.
`newContent.sitemapXml || previousContent.sitemapXml` is JS string
truthiness: the new value unless it is empty. Pages are concatenated,
previously-published first. -/
def mergeContent (newContent previousContent : ContentApiResponse) : ContentApiResponse :=
  { sitemapXml := if newContent.sitemapXml = "" then previousContent.sitemapXml
      else newContent.sitemapXml
    robotTxt := if newContent.robotTxt = "" then previousContent.robotTxt
      else newContent.robotTxt
    pages := previousContent.pages ++ newContent.pages }

/-- content-fetcher.ts lines 83-123 (`fetchAllContent`): both fetches are
run to completion via `Promise.allSettled` (so neither branch's failure
propagates); each settled result is defaulted to the empty bundle and the
two bundles are merged. The function's own catch and rethrow is modelled by
the fact that nothing after the settle can fail: the merged bundle is
returned unconditionally. Arguments are the settled results of the two
branch fetches. -/
def fetchAllContent (newContentResult previousContentResult : Except String ContentApiResponse) :
    Except String ContentApiResponse :=
  .ok (mergeContent (settledValueOrEmpty newContentResult)
        (settledValueOrEmpty previousContentResult))

end ContentFetcher

/-! ## Write stage

`createFiles` writes the bundle through the external FileManager capability
and Node's path module. The filesystem is modelled as an oracle `FsEnv`
giving the outcome of each `FileManager.writeFile` / `ensureDirectoryExists`
call (an `Except`, whose error is the thrown message). The path-module
functions are modelled as simplified pure string functions; `path.resolve`
of the configured target directory is modelled as the directory itself,
which never throws on a well-typed (string) configuration, so the outer
catch of `createFiles` is not reachable from well-typed inputs — it is
embedded separately as `createFilesOnError`. -/

/-- Filesystem oracle: the outcome of each external FileManager call.
`writeFile` takes the path and the content, `ensureDir` the directory. -/
structure FsEnv where
  writeFile : String → String → Except String Unit
  ensureDir : String → Except String Unit

/-- Simplified model of Node `path.join` for the joins performed by
`createFiles` (base directory ++ relative component). -/
def pathJoin (a b : String) : String := a ++ "/" ++ b

/-- Simplified model of Node `path.dirname`. -/
def pathDirname (p : String) : String :=
  let parts := p.splitOn "/"
  if parts.length ≤ 1 then "." else String.intercalate "/" parts.dropLast

/-- Simplified model of Node `path.basename`. -/
def pathBasename (p : String) : String :=
  (p.splitOn "/").getLastD p

/-- Simplified model of Node `path.relative` from the base directory, for
paths produced by `pathJoin` from that base. -/
def pathRelative (base p : String) : String :=
  if p.startsWith (base ++ "/") then p.drop (base ++ "/").length else p

/-- Accumulator of the write stage: the `filesCreated` and `errors` arrays
of content-fetcher.ts lines 126-127. -/
structure FilesAcc where
  filesCreated : List String
  errors : List String
  deriving Repr, DecidableEq

namespace ContentFetcher

/-- content-fetcher.ts lines 133-145: the sitemap.xml block. Attempted only
when `content.sitemapXml` is truthy (non-empty); a write failure is caught
and recorded, it does not stop later writes. -/
def writeSitemap (fs : FsEnv) (baseDir : String) (content : ContentApiResponse)
    (acc : FilesAcc) : FilesAcc :=
  if content.sitemapXml = "" then acc
  else
    match fs.writeFile (pathJoin baseDir "sitemap.xml") content.sitemapXml with
    | .ok _ => { acc with filesCreated := acc.filesCreated ++ ["sitemap.xml"] }
    | .error m =>
      { acc with errors := acc.errors ++ ["Failed to create sitemap.xml: " ++ m] }

/-- content-fetcher.ts lines 147-159: the robots.txt block, same shape as
the sitemap block. -/
def writeRobots (fs : FsEnv) (baseDir : String) (content : ContentApiResponse)
    (acc : FilesAcc) : FilesAcc :=
  if content.robotTxt = "" then acc
  else
    match fs.writeFile (pathJoin baseDir "robots.txt") content.robotTxt with
    | .ok _ => { acc with filesCreated := acc.filesCreated ++ ["robots.txt"] }
    | .error m =>
      { acc with errors := acc.errors ++ ["Failed to create robots.txt: " ++ m] }

/-- content-fetcher.ts lines 163-191: the body of the per-page loop. The
urlPath is normalized to carry an `.html` suffix, split into directory and
filename, the directory is created, the file written; any failure inside
the iteration is caught and recorded against that page. -/
def createPageFile (fs : FsEnv) (baseDir : String) (acc : FilesAcc)
    (page : ContentPage) : FilesAcc :=
  let urlPath := if page.urlPath.endsWith ".html" then page.urlPath
    else page.urlPath ++ ".html"
  let pageDir := pathDirname urlPath
  let pageFileName := pathBasename urlPath
  let fullDir := if pageDir = "." then baseDir else pathJoin baseDir pageDir
  match fs.ensureDir fullDir with
  | .error m =>
    { acc with errors := acc.errors ++ ["Failed to create page " ++ page.urlPath ++ ": " ++ m] }
  | .ok _ =>
    let filePath := pathJoin fullDir pageFileName
    match fs.writeFile filePath page.html with
    | .error m =>
      { acc with errors := acc.errors ++ ["Failed to create page " ++ page.urlPath ++ ": " ++ m] }
    | .ok _ =>
      { acc with filesCreated := acc.filesCreated ++ [pathRelative baseDir filePath] }

/-- content-fetcher.ts lines 195-210: building the SyncResult from the
accumulated arrays. `success` is `errors.length === 0` and the `errors`
field is attached only when non-empty. Durations inside the message are
abstracted. -/
def buildSyncResult (acc : FilesAcc) : SyncResult :=
  { success := acc.errors.isEmpty
    message := if acc.errors.isEmpty then
        "Successfully created " ++ toString acc.filesCreated.length ++ " files"
      else
        "Created " ++ toString acc.filesCreated.length ++ " files with "
          ++ toString acc.errors.length ++ " errors"
    filesCreated := acc.filesCreated
    errors := if acc.errors.isEmpty then none else some acc.errors }

/-- content-fetcher.ts lines 212-223: the outer catch handler of
`createFiles`. It is entered when an exception escapes the per-item
handlers; it reports a single outer error and the files created so far. The
per-item `errors` accumulated up to that point are in scope (second
argument) but are not consulted: the returned `errors` array holds exactly
the one outer message. -/
def createFilesOnError (filesCreated errors : List String) (errorMsg : String) : SyncResult :=
  { success := false
    message := errorMsg
    filesCreated := filesCreated
    errors := some [errorMsg] }

/-- content-fetcher.ts lines 125-224 (`createFiles`): sitemap block, robots
block, per-page loop, then result construction. `path.resolve` of the
configured target directory is modelled as the directory itself. -/
def createFiles (fs : FsEnv) (cfg : ContentFetcherConfig) (content : ContentApiResponse) :
    SyncResult :=
  let baseDir := cfg.targetDirectory
  buildSyncResult
    (content.pages.foldl (createPageFile fs baseDir)
      (writeRobots fs baseDir content (writeSitemap fs baseDir content ⟨[], []⟩)))

end ContentFetcher

/-! ## The ContentFetcher state machine -/

/-- The mutable fields of the ContentFetcher class that the sync pipeline
reads: the configuration and the `isFirstSync` flag (the `intervalId`
field of the class belongs to its deprecated own scheduler and is not part
of the modelled core). -/
structure FetcherState where
  config : ContentFetcherConfig
  isFirstSync : Bool
  deriving Repr, DecidableEq

/-- Environment of one sync attempt: the HTTP outcome at each of the two
endpoints and the filesystem oracle. -/
structure SyncEnv where
  newFetch : Except String HttpResponse
  prevFetch : Except String HttpResponse
  fs : FsEnv

namespace ContentFetcher

/-- content-fetcher.ts lines 15-17: the constructor stores the config;
`isFirstSync` starts `true` (line 13). -/
def construct (cfg : ContentFetcherConfig) : FetcherState :=
  { config := cfg, isFirstSync := true }

/-- content-fetcher.ts lines 397-399. -/
def isFirstSyncPending (s : FetcherState) : Bool := s.isFirstSync

/-- content-fetcher.ts lines 388-390 (`updateConfig`). -/
def updateConfig (s : FetcherState) (p : ConfigPatch) : FetcherState :=
  { s with config := mergeConfig s.config p }

/-- content-fetcher.ts lines 392-395 (`resetFirstSyncFlag`). -/
def resetFirstSyncFlag (s : FetcherState) : FetcherState :=
  { s with isFirstSync := true }

/-- content-fetcher.ts lines 226-271 (`syncContent`): on a first sync,
attempt the merged fetch, falling back to the new-only fetch if the merged
fetch throws; on a subsequent sync, fetch new content only. The resulting
bundle goes to `createFiles`, after which the first-sync flag is cleared
(lines 250-253). An exception from the fetch step reaches the outer catch,
which returns a failed SyncResult and leaves the flag untouched. Returns
the SyncResult together with the post-state. -/
def syncContent (env : SyncEnv) (s : FetcherState) : SyncResult × FetcherState :=
  let fetched : Except String ContentApiResponse :=
    if s.isFirstSync then
      match fetchAllContent (fetchContent env.newFetch)
          (fetchPreviouslyPublishedContent env.prevFetch) with
      | .ok content => .ok content
      | .error _ => fetchContent env.newFetch
    else
      fetchContent env.newFetch
  match fetched with
  | .ok content =>
    (createFiles env.fs s.config content, { s with isFirstSync := false })
  | .error msg =>
    let errorMsg := "Content sync failed: " ++ msg
    ({ success := false, message := errorMsg, filesCreated := [],
       errors := some [errorMsg] }, s)

/-- content-fetcher.ts lines 273-298 (`syncNewContentOnly`): new-only fetch
then write; a fetch failure becomes a failed SyncResult. Does not touch the
first-sync flag. -/
def syncNewContentOnly (env : SyncEnv) (s : FetcherState) : SyncResult :=
  match fetchContent env.newFetch with
  | .ok content => createFiles env.fs s.config content
  | .error msg =>
    let errorMsg := "New content sync failed: " ++ msg
    { success := false, message := errorMsg, filesCreated := [],
      errors := some [errorMsg] }

end ContentFetcher

/-! ## The ContentScheduler registry (scheduler.ts)

The two `Map<string, _>` fields are modelled as association lists in
insertion order (JS Map iteration order). Keys are unique by construction
in a JS Map; `mapDelete` therefore removes every binding of the key.
Timer handles are opaque in the source; they are modelled as the value of a
fresh-handle counter carried in the state. Effects of `start` that are not
state changes (arming the interval timer, firing the initial un-awaited
sync) are reported as an event list. -/

/-- JS Map get: first binding of the key. -/
def mapGet {α : Type} : List (String × α) → String → Option α
  | [], _ => none
  | (k1, v1) :: rest, k => if k1 = k then some v1 else mapGet rest k

/-- JS Map has. -/
def mapHas {α : Type} (m : List (String × α)) (k : String) : Bool :=
  (mapGet m k).isSome

/-- JS Map set: replace in place when present, append when absent. -/
def mapSet {α : Type} : List (String × α) → String → α → List (String × α)
  | [], k, v => [(k, v)]
  | (k1, v1) :: rest, k, v =>
    if k1 = k then (k, v) :: rest else (k1, v1) :: mapSet rest k v

/-- JS Map delete: remove the bindings of the key (a JS Map holds at most
one binding per key). -/
def mapDelete {α : Type} : List (String × α) → String → List (String × α)
  | [], _ => []
  | (k1, v1) :: rest, k =>
    if k1 = k then mapDelete rest k else (k1, v1) :: mapDelete rest k

/-- JS Map keys, in insertion order. -/
def mapKeys {α : Type} (m : List (String × α)) : List String :=
  m.map Prod.fst

/-- JS falsiness of an optional string argument: `undefined` and the empty
string are falsy. -/
def optFalsy : Option String → Bool
  | none => true
  | some s => s = ""

/-- Observable side effects of `ContentScheduler.start`, in program order. -/
inductive SchedEvent where
  | armedTimer (id : String) (periodMs : Nat)
  | syncTriggered (id : String) (awaited : Bool)
  deriving Repr, DecidableEq

/-- The ContentScheduler fields (scheduler.ts lines 4-11): the fetcher map,
the armed-timer map, and the legacy single-fetcher mode. `nextHandle` is
the model's supply of fresh timer handles. -/
structure SchedulerState where
  fetchers : List (String × FetcherState)
  schedulers : List (String × Nat)
  legacyId : Option String
  isLegacyMode : Bool
  nextHandle : Nat
  deriving Repr, DecidableEq

namespace ContentScheduler

/-- scheduler.ts lines 16-26, no-argument constructor branch. -/
def constructEmpty : SchedulerState :=
  { fetchers := [], schedulers := [], legacyId := none, isLegacyMode := false,
    nextHandle := 0 }

/-- scheduler.ts lines 16-26, two-argument constructor: legacy mode is
entered only when both arguments are truthy (a fetcher object is always
truthy; the id must be non-empty), in which case the fetcher is
pre-registered under the id. -/
def constructLegacy (fetcher : FetcherState) (id : String) : SchedulerState :=
  if id = "" then constructEmpty
  else
    { fetchers := [(id, fetcher)], schedulers := [], legacyId := some id,
      isLegacyMode := true, nextHandle := 0 }

/-- scheduler.ts lines 50-54 (shared by `start` and `stop`): resolve the
target id — the legacy default id when in legacy mode and the argument is
falsy, else the argument — then reject a falsy target. -/
def resolveId (st : SchedulerState) (idArg : Option String) : Option String :=
  let t := if st.isLegacyMode = true ∧ optFalsy idArg = true then st.legacyId else idArg
  if optFalsy t then none else t

/-- scheduler.ts lines 28-37 (`addFetcher`): update the existing fetcher's
config in place when the id is registered, else register a freshly
constructed fetcher. -/
def addFetcher (st : SchedulerState) (id : String) (config : ContentFetcherConfig) :
    SchedulerState :=
  match mapGet st.fetchers id with
  | some f =>
    { st with fetchers :=
        mapSet st.fetchers id (ContentFetcher.updateConfig f (patchOfConfig config)) }
  | none =>
    { st with fetchers := mapSet st.fetchers id (ContentFetcher.construct config) }

/-- scheduler.ts lines 88-103 (`stop`): resolve the id (throwing on
failure), then cancel and remove the armed timer if one exists. -/
def stop (st : SchedulerState) (idArg : Option String) : Except String SchedulerState :=
  match resolveId st idArg with
  | none => .error "No fetcher ID provided and not in legacy mode"
  | some targetId =>
    if mapHas st.schedulers targetId then
      .ok { st with schedulers := mapDelete st.schedulers targetId }
    else
      .ok st

/-- scheduler.ts lines 39-45 (`removeFetcher`): when the id is registered,
first `stop(id)`, then delete the fetcher. An exception thrown by `stop`
(possible when the id is the falsy empty string outside legacy mode)
escapes before the deletion. -/
def removeFetcher (st : SchedulerState) (id : String) : SchedulerState :=
  if mapHas st.fetchers id then
    match stop st (some id) with
    | .ok st1 => { st1 with fetchers := mapDelete st1.fetchers id }
    | .error _ => st
  else st

/-- scheduler.ts lines 47-86 (`start`): resolve the id (throwing on
failure), throw when the fetcher is unregistered, return silently when a
timer is already armed; otherwise create the 24-hour interval timer,
record its handle, and finally trigger one immediate `syncContent()` that
is not awaited (its rejection is only logged). The second component lists
the effects in program order. -/
def start (st : SchedulerState) (idArg : Option String) :
    Except String (SchedulerState × List SchedEvent) :=
  match resolveId st idArg with
  | none => .error "No fetcher ID provided and not in legacy mode"
  | some targetId =>
    match mapGet st.fetchers targetId with
    | none => .error ("Fetcher " ++ targetId ++ " not found")
    | some _ =>
      if mapHas st.schedulers targetId then
        .ok (st, [])
      else
        .ok ({ st with
                schedulers := mapSet st.schedulers targetId st.nextHandle,
                nextHandle := st.nextHandle + 1 },
             [.armedTimer targetId 86400000, .syncTriggered targetId false])

/-- Iteration of `startAll` over a snapshot of the fetcher keys
(scheduler.ts lines 105-109); a thrown `start` aborts the iteration. -/
def startAllGo (st : SchedulerState) : List String → SchedulerState
  | [] => st
  | id :: rest =>
    match start st (some id) with
    | .ok (st1, _) => startAllGo st1 rest
    | .error _ => st

/-- scheduler.ts lines 105-109 (`startAll`). `start` never mutates the
fetcher map, so iterating a snapshot of its keys is faithful. -/
def startAll (st : SchedulerState) : SchedulerState :=
  startAllGo st (mapKeys st.fetchers)

/-- Iteration of `stopAll` over a snapshot of the armed-timer keys
(scheduler.ts lines 111-115). -/
def stopAllGo (st : SchedulerState) : List String → SchedulerState
  | [] => st
  | id :: rest =>
    match stop st (some id) with
    | .ok st1 => stopAllGo st1 rest
    | .error _ => st

/-- scheduler.ts lines 111-115 (`stopAll`). `stop` only ever deletes the
entry it is visiting (armed keys are non-empty strings in reachable
states), so a snapshot of the keys is faithful to live Map iteration. -/
def stopAll (st : SchedulerState) : SchedulerState :=
  stopAllGo st (mapKeys st.schedulers)

end ContentScheduler

/-- The registry-mutating operations of the scheduler's public API. -/
inductive SchedOp where
  | addFetcher (id : String) (cfg : ContentFetcherConfig)
  | removeFetcher (id : String)
  | start (idArg : Option String)
  | stop (idArg : Option String)
  | startAll
  | stopAll

/-- State transition of one public operation; a thrown `start`/`stop`
leaves the state as it was at the throw point. -/
def applyOp (st : SchedulerState) : SchedOp → SchedulerState
  | .addFetcher id cfg => ContentScheduler.addFetcher st id cfg
  | .removeFetcher id => ContentScheduler.removeFetcher st id
  | .start idArg =>
    match ContentScheduler.start st idArg with
    | .ok (st1, _) => st1
    | .error _ => st
  | .stop idArg =>
    match ContentScheduler.stop st idArg with
    | .ok st1 => st1
    | .error _ => st
  | .startAll => ContentScheduler.startAll st
  | .stopAll => ContentScheduler.stopAll st

/-! ## Concrete fixtures used by witnesses -/

/-- A sample configuration. -/
def cfgA : ContentFetcherConfig :=
  { domain := "example.com", installId := "install-1", targetDirectory := "out" }

/-- A second sample configuration with a different target directory. -/
def cfgB : ContentFetcherConfig :=
  { domain := "example.com", installId := "install-1", targetDirectory := "public" }

/-- A filesystem oracle on which every write succeeds. -/
def fsOk : FsEnv :=
  { writeFile := fun _ _ => .ok (), ensureDir := fun _ => .ok () }

/-- A 404 response carrying the empty-content sentinel body. The body does
not parse as a bundle, which the sentinel path never consults. -/
def respNoPages : HttpResponse :=
  { ok := false, status := 404, statusText := "Not Found",
    jsonErrorField := some noPagesSentinel, body := .error "invalid json" }

/-- A 500 response. -/
def respServerError : HttpResponse :=
  { ok := false, status := 500, statusText := "Internal Server Error",
    jsonErrorField := none, body := .error "invalid json" }

/-! ## Accounting lemmas for the write stage -/

/-- Total number of recorded outcomes in a write-stage accumulator. -/
def accCount (acc : FilesAcc) : Nat :=
  acc.filesCreated.length + acc.errors.length

theorem writeSitemap_count (fs : FsEnv) (b : String) (c : ContentApiResponse) (acc : FilesAcc) :
    accCount (ContentFetcher.writeSitemap fs b c acc)
      = accCount acc + (if c.sitemapXml = "" then 0 else 1) := by
  unfold ContentFetcher.writeSitemap accCount
  split
  · simp
  · split <;> simp <;> omega

theorem writeRobots_count (fs : FsEnv) (b : String) (c : ContentApiResponse) (acc : FilesAcc) :
    accCount (ContentFetcher.writeRobots fs b c acc)
      = accCount acc + (if c.robotTxt = "" then 0 else 1) := by
  unfold ContentFetcher.writeRobots accCount
  split
  · simp
  · split <;> simp <;> omega

theorem createPageFile_count (fs : FsEnv) (b : String) (acc : FilesAcc) (p : ContentPage) :
    accCount (ContentFetcher.createPageFile fs b acc p) = accCount acc + 1 := by
  have haux : ∀ u : String,
      accCount
        (match fs.ensureDir (if pathDirname u = "." then b else pathJoin b (pathDirname u)) with
          | .error m =>
            { acc with errors :=
                acc.errors ++ ["Failed to create page " ++ p.urlPath ++ ": " ++ m] }
          | .ok _ =>
            match fs.writeFile
                (pathJoin (if pathDirname u = "." then b else pathJoin b (pathDirname u))
                  (pathBasename u)) p.html with
            | .error m =>
              { acc with errors :=
                  acc.errors ++ ["Failed to create page " ++ p.urlPath ++ ": " ++ m] }
            | .ok _ =>
              { acc with filesCreated := acc.filesCreated
                  ++ [pathRelative b
                        (pathJoin (if pathDirname u = "." then b else pathJoin b (pathDirname u))
                          (pathBasename u))] })
        = accCount acc + 1 := by
    intro u
    rcases fs.ensureDir (if pathDirname u = "." then b else pathJoin b (pathDirname u))
      with m | v
    · simp [accCount]; omega
    · rcases fs.writeFile
          (pathJoin (if pathDirname u = "." then b else pathJoin b (pathDirname u))
            (pathBasename u)) p.html with m | v
      · simp [accCount]; omega
      · simp [accCount]; omega
  unfold ContentFetcher.createPageFile
  split
  · exact haux p.urlPath
  · exact haux (p.urlPath ++ ".html")

theorem foldl_createPageFile_count (fs : FsEnv) (b : String) (pages : List ContentPage) :
    ∀ acc : FilesAcc,
      accCount (pages.foldl (ContentFetcher.createPageFile fs b) acc)
        = accCount acc + pages.length := by
  induction pages with
  | nil => intro acc; simp
  | cons p ps ih =>
    intro acc
    simp only [List.foldl_cons, List.length_cons]
    rw [ih, createPageFile_count]
    omega

theorem buildSyncResult_shape (acc : FilesAcc) :
    (ContentFetcher.buildSyncResult acc).filesCreated.length
        + ((ContentFetcher.buildSyncResult acc).errors.getD []).length = accCount acc
      ∧ ((ContentFetcher.buildSyncResult acc).success = true
        ↔ (ContentFetcher.buildSyncResult acc).errors = none) := by
  unfold ContentFetcher.buildSyncResult accCount
  by_cases h : acc.errors.isEmpty
  · have hlen : acc.errors.length = 0 := by
      simpa [List.isEmpty_iff_length_eq_zero] using h
    simp [h, hlen]
  · simp [h]

/-- Claim C2: for every bundle passed to `createFiles`, the returned
SyncResult satisfies: `filesCreated.length` plus the length of the `errors`
list (0 when absent) equals the number of write attempts actually made —
the sitemap is attempted iff `sitemapXml` is non-empty, robots iff
`robotTxt` is non-empty, and exactly one attempt is made per page — and
`success` is true iff the errors list is empty (the field being attached
only when non-empty). -/
theorem createFiles_write_accounting (fs : FsEnv) (cfg : ContentFetcherConfig)
    (content : ContentApiResponse) :
    (ContentFetcher.createFiles fs cfg content).filesCreated.length
        + (((ContentFetcher.createFiles fs cfg content).errors.getD []).length)
      = (if content.sitemapXml = "" then 0 else 1) + (if content.robotTxt = "" then 0 else 1)
        + content.pages.length
      ∧ ((ContentFetcher.createFiles fs cfg content).success = true
        ↔ (ContentFetcher.createFiles fs cfg content).errors = none) := by
  unfold ContentFetcher.createFiles
  refine ⟨?_, (buildSyncResult_shape _).2⟩
  rw [(buildSyncResult_shape _).1, foldl_createPageFile_count, writeRobots_count,
    writeSitemap_count]
  simp [accCount]

/-- Claim C10: `createFiles` is total in the embedding — it returns a
structured SyncResult for every filesystem outcome, never an exception —
and its outer catch handler (content-fetcher.ts lines 212-223), entered
when an exception escapes the per-item handlers after some items were
already processed, returns `success = false`, retains the `filesCreated`
entries accumulated so far, and reports exactly one error entry (the outer
message): the per-item error entries accumulated before the failure are
discarded — the handler's result does not depend on them at all. -/
theorem createFiles_outer_catch_shape (fc errs : List String) (msg : String) :
    (ContentFetcher.createFilesOnError fc errs msg).success = false
      ∧ (ContentFetcher.createFilesOnError fc errs msg).filesCreated = fc
      ∧ (ContentFetcher.createFilesOnError fc errs msg).errors = some [msg]
      ∧ ContentFetcher.createFilesOnError fc errs msg
        = ContentFetcher.createFilesOnError fc [] msg :=
  ⟨rfl, rfl, rfl, rfl⟩

/-- Claim C3: `fetchAllContent` never propagates a branch failure: for
every pair of settled branch outcomes it returns (never a FetchError) the
merge of the two bundles, a failed branch contributing the empty bundle;
the merged bundle takes each of `sitemapXml`/`robotTxt` from the new bundle
when non-empty and from the previous bundle otherwise, and concatenates the
previously-published pages before the new pages. In particular, when the
new-content branch fails and the previous-content branch succeeds, the
merged bundle is exactly the previous bundle (e.g. exactly its 2 pages)
with no surfaced error. -/
theorem fetchAllContent_merge_never_fails (nr pr : Except String ContentApiResponse)
    (e : String) (b : ContentApiResponse) :
    isFetchError (ContentFetcher.fetchAllContent nr pr) = false
      ∧ ContentFetcher.fetchAllContent nr pr
        = .ok { sitemapXml :=
                  if (ContentFetcher.settledValueOrEmpty nr).sitemapXml = "" then
                    (ContentFetcher.settledValueOrEmpty pr).sitemapXml
                  else (ContentFetcher.settledValueOrEmpty nr).sitemapXml
                robotTxt :=
                  if (ContentFetcher.settledValueOrEmpty nr).robotTxt = "" then
                    (ContentFetcher.settledValueOrEmpty pr).robotTxt
                  else (ContentFetcher.settledValueOrEmpty nr).robotTxt
                pages := (ContentFetcher.settledValueOrEmpty pr).pages
                  ++ (ContentFetcher.settledValueOrEmpty nr).pages }
      ∧ ContentFetcher.fetchAllContent (.error e) (.ok b)
        = .ok { sitemapXml := b.sitemapXml, robotTxt := b.robotTxt, pages := b.pages } := by
  refine ⟨rfl, rfl, ?_⟩
  simp [ContentFetcher.fetchAllContent, ContentFetcher.mergeContent,
    ContentFetcher.settledValueOrEmpty, emptyBundle]

/-- Claim C1: a freshly constructed ContentFetcher has `isFirstSync = true`
(`isFirstSyncPending()` answers true); after the first `syncContent()`
returns — for every environment, i.e. regardless of how the merged fetch
went — the flag is false, so `isFirstSyncPending()` answers false; and the
second `syncContent()` call uses the new-only fetch path: its outcome is
independent of the previously-published endpoint. -/
theorem firstSync_flag_transition (cfg : ContentFetcherConfig) (env env2 : SyncEnv)
    (alt : Except String HttpResponse) :
    ContentFetcher.isFirstSyncPending (ContentFetcher.construct cfg) = true
      ∧ ContentFetcher.isFirstSyncPending
          (ContentFetcher.syncContent env (ContentFetcher.construct cfg)).2 = false
      ∧ ContentFetcher.syncContent { env2 with prevFetch := alt }
            (ContentFetcher.syncContent env (ContentFetcher.construct cfg)).2
        = ContentFetcher.syncContent env2
            (ContentFetcher.syncContent env (ContentFetcher.construct cfg)).2 := by
  have hstate : (ContentFetcher.syncContent env (ContentFetcher.construct cfg)).2
      = { config := cfg, isFirstSync := false } := by
    simp [ContentFetcher.syncContent, ContentFetcher.fetchAllContent,
      ContentFetcher.construct]
  refine ⟨rfl, ?_, ?_⟩
  · rw [hstate]; rfl
  · rw [hstate]
    simp [ContentFetcher.syncContent]

/-- Claim C4: for both fetch variants, an HTTP 404 response whose body
carries exactly the sentinel `error` message "No generated pages to
publish." yields the empty ContentBundle rather than a FetchError; a
subsequent-state `syncContent()` on that response succeeds with empty
`filesCreated` and no `errors`; and every other non-ok response yields a
FetchError on both variants. -/
theorem notFound_sentinel_empty_bundle (r r2 : HttpResponse) (fs : FsEnv)
    (cfg : ContentFetcherConfig) (prevR : Except String HttpResponse)
    (h1 : r.ok = false) (h2 : r.status = 404)
    (h3 : r.jsonErrorField = some noPagesSentinel) (h4 : r2.ok = false)
    (h5 : ¬(r2.status = 404 ∧ r2.jsonErrorField = some noPagesSentinel)) :
    ContentFetcher.fetchContent (.ok r) = .ok emptyBundle
      ∧ ContentFetcher.fetchPreviouslyPublishedContent (.ok r) = .ok emptyBundle
      ∧ (ContentFetcher.syncContent { newFetch := .ok r, prevFetch := prevR, fs := fs }
            { config := cfg, isFirstSync := false }).1.success = true
      ∧ (ContentFetcher.syncContent { newFetch := .ok r, prevFetch := prevR, fs := fs }
            { config := cfg, isFirstSync := false }).1.filesCreated = []
      ∧ (ContentFetcher.syncContent { newFetch := .ok r, prevFetch := prevR, fs := fs }
            { config := cfg, isFirstSync := false }).1.errors = none
      ∧ isFetchError (ContentFetcher.fetchContent (.ok r2)) = true
      ∧ isFetchError (ContentFetcher.fetchPreviouslyPublishedContent (.ok r2)) = true := by
  have hnew : ContentFetcher.fetchContent (.ok r) = .ok emptyBundle := by
    simp [ContentFetcher.fetchContent, h1, h2, h3]
  have hprev : ContentFetcher.fetchPreviouslyPublishedContent (.ok r) = .ok emptyBundle := by
    simp [ContentFetcher.fetchPreviouslyPublishedContent, h1, h2, h3]
  have hempty : ContentFetcher.createFiles fs cfg emptyBundle
      = ContentFetcher.buildSyncResult ⟨[], []⟩ := rfl
  have hsync : (ContentFetcher.syncContent { newFetch := .ok r, prevFetch := prevR, fs := fs }
      { config := cfg, isFirstSync := false }).1 = ContentFetcher.buildSyncResult ⟨[], []⟩ := by
    simp [ContentFetcher.syncContent, hnew, hempty]
  refine ⟨hnew, hprev, ?_, ?_, ?_, ?_, ?_⟩
  · rw [hsync]; rfl
  · rw [hsync]; rfl
  · rw [hsync]; rfl
  · simp [ContentFetcher.fetchContent, isFetchError, h4, h5]
  · simp [ContentFetcher.fetchPreviouslyPublishedContent, isFetchError, h4, h5]

/-- Witness for C4 at a concrete 404-sentinel response and a concrete 500
response. -/
theorem notFound_sentinel_empty_bundle_witness :
    ContentFetcher.fetchContent (.ok respNoPages) = .ok emptyBundle
      ∧ (ContentFetcher.syncContent
            { newFetch := .ok respNoPages, prevFetch := .ok respNoPages, fs := fsOk }
            { config := cfgA, isFirstSync := false }).1.success = true
      ∧ isFetchError (ContentFetcher.fetchContent (.ok respServerError)) = true := by
  have h := notFound_sentinel_empty_bundle respNoPages respServerError fsOk cfgA
    (.ok respNoPages) rfl rfl rfl rfl (by simp [respServerError])
  exact ⟨h.1, h.2.2.1, h.2.2.2.2.2.1⟩

/-- Claim C5: when the fetch step of a single-fetch path fails, the sync
entry points do not throw: a subsequent-state `syncContent()` and
`syncNewContentOnly()` both return a structured failed outcome with
`success = false`, empty `filesCreated`, and exactly one error entry that
carries the fetch failure message. -/
theorem singleFetch_failure_structured_outcome (env : SyncEnv) (s : FetcherState)
    (msg : String) (h : ContentFetcher.fetchContent env.newFetch = .error msg)
    (hs : s.isFirstSync = false) :
    (ContentFetcher.syncContent env s).1.success = false
      ∧ (ContentFetcher.syncContent env s).1.filesCreated = []
      ∧ (ContentFetcher.syncContent env s).1.errors = some ["Content sync failed: " ++ msg]
      ∧ (ContentFetcher.syncNewContentOnly env s).success = false
      ∧ (ContentFetcher.syncNewContentOnly env s).filesCreated = []
      ∧ (ContentFetcher.syncNewContentOnly env s).errors
        = some ["New content sync failed: " ++ msg] := by
  unfold ContentFetcher.syncContent ContentFetcher.syncNewContentOnly
  rw [hs, h]
  simp

/-- Witness for C5 at a concrete network failure. -/
theorem singleFetch_failure_structured_outcome_witness :
    (ContentFetcher.syncContent
        { newFetch := .error "network down", prevFetch := .error "network down", fs := fsOk }
        { config := cfgA, isFirstSync := false }).1.success = false
      ∧ (ContentFetcher.syncNewContentOnly
          { newFetch := .error "network down", prevFetch := .error "network down", fs := fsOk }
          { config := cfgA, isFirstSync := false }).errors
        = some ["New content sync failed: Failed to fetch new content: network down"] := by
  have h := singleFetch_failure_structured_outcome
    { newFetch := .error "network down", prevFetch := .error "network down", fs := fsOk }
    { config := cfgA, isFirstSync := false }
    "Failed to fetch new content: network down" rfl rfl
  exact ⟨h.1, h.2.2.2.2.2⟩

/-! ## Map lemmas -/

theorem mapGet_mapSet_self {α : Type} (m : List (String × α)) (k : String) (v : α) :
    mapGet (mapSet m k v) k = some v := by
  induction m with
  | nil => simp [mapSet, mapGet]
  | cons p rest ih =>
    obtain ⟨k1, v1⟩ := p
    by_cases h : k1 = k
    · simp [mapSet, h, mapGet]
    · simp [mapSet, h, mapGet, ih]

theorem mapGet_mapSet_ne {α : Type} (m : List (String × α)) (k j : String) (v : α)
    (h : j ≠ k) : mapGet (mapSet m k v) j = mapGet m j := by
  have h2 : k ≠ j := Ne.symm h
  induction m with
  | nil => simp [mapSet, mapGet, h2]
  | cons p rest ih =>
    obtain ⟨k1, v1⟩ := p
    by_cases h1 : k1 = k
    · subst h1
      simp [mapSet, mapGet, h2]
    · simp [mapSet, mapGet, h1, ih]

theorem mapHas_mapSet {α : Type} (m : List (String × α)) (k j : String) (v : α) :
    mapHas (mapSet m k v) j = true ↔ j = k ∨ mapHas m j = true := by
  by_cases h : j = k
  · subst h
    simp [mapHas, mapGet_mapSet_self]
  · simp [mapHas, mapGet_mapSet_ne m k j v h, h]

theorem mapKeys_mapSet_of_has {α : Type} (m : List (String × α)) (k : String) (v : α)
    (h : mapHas m k = true) : mapKeys (mapSet m k v) = mapKeys m := by
  induction m with
  | nil => simp [mapHas, mapGet] at h
  | cons p rest ih =>
    obtain ⟨k1, v1⟩ := p
    by_cases h1 : k1 = k
    · simp [mapSet, h1, mapKeys]
    · have hrest : mapHas rest k = true := by
        simpa [mapHas, mapGet, h1] using h
      simp [mapSet, h1, mapKeys] at ih ⊢
      exact ih hrest

theorem mapGet_mapDelete_self {α : Type} (m : List (String × α)) (k : String) :
    mapGet (mapDelete m k) k = none := by
  induction m with
  | nil => simp [mapDelete, mapGet]
  | cons p rest ih =>
    obtain ⟨k1, v1⟩ := p
    by_cases h : k1 = k
    · simpa [mapDelete, h] using ih
    · simpa [mapDelete, mapGet, h] using ih

theorem mapHas_of_mapHas_mapDelete {α : Type} (m : List (String × α)) (k j : String)
    (h : mapHas (mapDelete m k) j = true) : mapHas m j = true := by
  induction m with
  | nil => simpa [mapDelete] using h
  | cons p rest ih =>
    obtain ⟨k1, v1⟩ := p
    by_cases h2 : k1 = j
    · simp [mapHas, mapGet, h2]
    · by_cases h1 : k1 = k
      · have hr := ih (by simpa [mapDelete, h1] using h)
        simpa [mapHas, mapGet, h2] using hr
      · have hr := ih (by simpa [mapDelete, mapHas, mapGet, h1, h2] using h)
        simpa [mapHas, mapGet, h2] using hr

theorem mapHas_mapDelete {α : Type} (m : List (String × α)) (k j : String)
    (h : mapHas (mapDelete m k) j = true) : j ≠ k ∧ mapHas m j = true := by
  refine ⟨?_, mapHas_of_mapHas_mapDelete m k j h⟩
  intro hjk
  subst hjk
  simp [mapHas, mapGet_mapDelete_self] at h

theorem mapGet_mapDelete_ne {α : Type} (m : List (String × α)) (k j : String)
    (h : j ≠ k) : mapGet (mapDelete m k) j = mapGet m j := by
  induction m with
  | nil => simp [mapDelete]
  | cons p rest ih =>
    obtain ⟨k1, v1⟩ := p
    by_cases h1 : k1 = k
    · subst h1
      have h2 : k1 ≠ j := Ne.symm h
      simp [mapDelete, mapGet, h2, ih]
    · simp [mapDelete, mapGet, h1, ih]

/-! ## Scheduler resolution and invariant lemmas -/

theorem resolveId_ne_empty (st : SchedulerState) (a : Option String) (t : String)
    (h : ContentScheduler.resolveId st a = some t) : t ≠ "" := by
  simp only [ContentScheduler.resolveId] at h
  generalize hx : (if st.isLegacyMode = true ∧ optFalsy a = true then st.legacyId else a) = x at h
  by_cases hf : optFalsy x = true
  · rw [if_pos hf] at h
    simp at h
  · rw [if_neg hf] at h
    subst h
    simpa [optFalsy] using hf

theorem resolveId_explicit (st : SchedulerState) (id : String) (hid : id ≠ "") :
    ContentScheduler.resolveId st (some id) = some id := by
  simp [ContentScheduler.resolveId, optFalsy, hid]

/-- The key registry invariant: an armed-timer entry exists only for a
registered, non-empty id. -/
def SchedInv (st : SchedulerState) : Prop :=
  ∀ id, mapHas st.schedulers id = true → mapHas st.fetchers id = true ∧ id ≠ ""

theorem schedInv_constructEmpty : SchedInv ContentScheduler.constructEmpty := by
  intro id h
  simp [ContentScheduler.constructEmpty, mapHas, mapGet] at h

theorem schedInv_constructLegacy (f : FetcherState) (i : String) :
    SchedInv (ContentScheduler.constructLegacy f i) := by
  unfold ContentScheduler.constructLegacy
  split
  · exact schedInv_constructEmpty
  · intro id h
    simp [mapHas, mapGet] at h

theorem schedInv_start (st st1 : SchedulerState) (a : Option String) (evs : List SchedEvent)
    (hInv : SchedInv st) (h : ContentScheduler.start st a = .ok (st1, evs)) :
    SchedInv st1 := by
  unfold ContentScheduler.start at h
  split at h
  · simp at h
  · rename_i t hr
    split at h
    · simp at h
    · rename_i f hf
      split at h
      · cases h
        exact hInv
      · cases h
        intro id hid
        rcases (mapHas_mapSet st.schedulers t id st.nextHandle).1 hid with hEq | hOld
        · subst hEq
          exact ⟨by simp [mapHas, hf], resolveId_ne_empty st a id hr⟩
        · exact hInv id hOld

theorem stop_ok_spec (st : SchedulerState) (a : Option String) (st1 : SchedulerState)
    (h : ContentScheduler.stop st a = .ok st1) :
    st1.fetchers = st.fetchers
      ∧ ∀ j, mapHas st1.schedulers j = true → mapHas st.schedulers j = true := by
  unfold ContentScheduler.stop at h
  split at h
  · simp at h
  · split at h
    · cases h
      exact ⟨rfl, fun j hj => mapHas_of_mapHas_mapDelete _ _ _ hj⟩
    · cases h
      exact ⟨rfl, fun j hj => hj⟩

theorem schedInv_stop (st st1 : SchedulerState) (a : Option String)
    (hInv : SchedInv st) (h : ContentScheduler.stop st a = .ok st1) : SchedInv st1 := by
  obtain ⟨hfe, hsub⟩ := stop_ok_spec st a st1 h
  intro j hj
  obtain ⟨hjf, hje⟩ := hInv j (hsub j hj)
  rw [show mapHas st1.fetchers j = mapHas st.fetchers j from by rw [hfe]]
  exact ⟨hjf, hje⟩

theorem stop_explicit (st : SchedulerState) (id : String) (hid : id ≠ "") :
    ∃ st1, ContentScheduler.stop st (some id) = .ok st1
      ∧ st1.fetchers = st.fetchers
      ∧ mapHas st1.schedulers id = false := by
  unfold ContentScheduler.stop
  rw [resolveId_explicit st id hid]
  by_cases hs : mapHas st.schedulers id = true
  · exact ⟨{ st with schedulers := mapDelete st.schedulers id }, by simp [hs], rfl,
      by simp [mapHas, mapGet_mapDelete_self]⟩
  · exact ⟨st, by simp [hs], rfl, by simpa using hs⟩

theorem schedInv_addFetcher (st : SchedulerState) (id : String)
    (cfg : ContentFetcherConfig) (hInv : SchedInv st) :
    SchedInv (ContentScheduler.addFetcher st id cfg) := by
  unfold ContentScheduler.addFetcher
  split
  all_goals
    intro j hj
    rcases hInv j hj with ⟨hjf, hje⟩
    exact ⟨(mapHas_mapSet st.fetchers id j _).2 (Or.inr hjf), hje⟩

theorem schedInv_removeFetcher (st : SchedulerState) (id : String) (hInv : SchedInv st) :
    SchedInv (ContentScheduler.removeFetcher st id) := by
  unfold ContentScheduler.removeFetcher
  split
  · split
    · rename_i st1 hstop
      obtain ⟨hfe, hsub⟩ := stop_ok_spec st (some id) st1 hstop
      intro j hj
      obtain ⟨hjf, hje⟩ := hInv j (hsub j hj)
      refine ⟨?_, hje⟩
      have hjid : j ≠ id := by
        by_cases hid : id = ""
        · subst hid; exact hje
        · intro hh
          subst hh
          obtain ⟨st2, hstop2, _, hs2⟩ := stop_explicit st j hid
          rw [hstop2] at hstop
          cases hstop
          exact absurd hj (by simp [hs2])
      have hg : mapGet (mapDelete st1.fetchers id) j = mapGet st.fetchers j := by
        rw [mapGet_mapDelete_ne st1.fetchers id j hjid, hfe]
      simpa [mapHas, hg] using hjf
    · exact hInv
  · exact hInv

theorem schedInv_startAllGo (ids : List String) :
    ∀ st : SchedulerState, SchedInv st → SchedInv (ContentScheduler.startAllGo st ids) := by
  induction ids with
  | nil => intro st h; exact h
  | cons id rest ih =>
    intro st h
    unfold ContentScheduler.startAllGo
    split
    · rename_i st1 evs hstart
      exact ih st1 (schedInv_start st st1 (some id) evs h hstart)
    · exact h

theorem schedInv_stopAllGo (ids : List String) :
    ∀ st : SchedulerState, SchedInv st → SchedInv (ContentScheduler.stopAllGo st ids) := by
  induction ids with
  | nil => intro st h; exact h
  | cons id rest ih =>
    intro st h
    unfold ContentScheduler.stopAllGo
    split
    · rename_i st1 hstop
      exact ih st1 (schedInv_stop st st1 (some id) h hstop)
    · exact h

theorem schedInv_applyOp (st : SchedulerState) (op : SchedOp) (h : SchedInv st) :
    SchedInv (applyOp st op) := by
  cases op with
  | addFetcher id cfg => exact schedInv_addFetcher st id cfg h
  | removeFetcher id => exact schedInv_removeFetcher st id h
  | start a =>
    simp only [applyOp]
    split
    · rename_i st1 evs hstart
      exact schedInv_start st st1 a evs h hstart
    · exact h
  | stop a =>
    simp only [applyOp]
    split
    · rename_i st1 hstop
      exact schedInv_stop st st1 a h hstop
    · exact h
  | startAll => exact schedInv_startAllGo (mapKeys st.fetchers) st h
  | stopAll => exact schedInv_stopAllGo (mapKeys st.schedulers) st h

theorem schedInv_foldl (ops : List SchedOp) :
    ∀ st : SchedulerState, SchedInv st → SchedInv (ops.foldl applyOp st) := by
  induction ops with
  | nil => intro st h; exact h
  | cons op rest ih =>
    intro st h
    exact ih (applyOp st op) (schedInv_applyOp st op h)

theorem removeFetcher_removes (st : SchedulerState) (id : String) (hid : id ≠ "")
    (hInv : SchedInv st) :
    mapHas (ContentScheduler.removeFetcher st id).fetchers id = false
      ∧ mapHas (ContentScheduler.removeFetcher st id).schedulers id = false := by
  unfold ContentScheduler.removeFetcher
  by_cases hf : mapHas st.fetchers id = true
  · rw [if_pos hf]
    obtain ⟨st1, hstop, hfe, hsched⟩ := stop_explicit st id hid
    rw [hstop]
    refine ⟨by simp [mapHas, mapGet_mapDelete_self], hsched⟩
  · rw [if_neg hf]
    refine ⟨by simpa using hf, ?_⟩
    by_cases hs : mapHas st.schedulers id = true
    · exact absurd (hInv id hs).1 hf
    · simpa using hs

theorem start_noop_of_armed (st : SchedulerState) (a : Option String) (t : String)
    (hr : ContentScheduler.resolveId st a = some t) (hf : mapHas st.fetchers t = true)
    (hs : mapHas st.schedulers t = true) :
    ContentScheduler.start st a = .ok (st, []) := by
  unfold ContentScheduler.start
  rw [hr]
  unfold mapHas at hf
  rcases hg : mapGet st.fetchers t with _ | f
  · rw [hg] at hf
    simp at hf
  · simp [hg, hs]

/-! ## Scheduler fixtures -/

/-- A non-legacy scheduler with one registered fetcher under id "a". -/
def schedRegA : SchedulerState :=
  ContentScheduler.addFetcher ContentScheduler.constructEmpty "a" cfgA

/-- The state after `start("a")` on `schedRegA`. -/
def schedArmedA : SchedulerState :=
  { fetchers := [("a", ContentFetcher.construct cfgA)], schedulers := [("a", 0)],
    legacyId := none, isLegacyMode := false, nextHandle := 1 }

/-- Claim C6: starting an already-armed schedule is idempotent. After any
successful `start` call, an immediately repeated `start` with the same
argument returns the same state — no second timer is created, the
armed-timer map is unchanged — and produces no effects at all, in
particular no extra immediate sync; so start; start leaves the scheduler
exactly as a single start. -/
theorem start_idempotent (st st1 : SchedulerState) (a : Option String)
    (evs : List SchedEvent) (h : ContentScheduler.start st a = .ok (st1, evs)) :
    ContentScheduler.start st1 a = .ok (st1, []) := by
  unfold ContentScheduler.start at h
  split at h
  · simp at h
  · rename_i t hr
    split at h
    · simp at h
    · rename_i f hf
      split at h
      · rename_i hs
        cases h
        exact start_noop_of_armed st a t hr (by simp [mapHas, hf]) hs
      · cases h
        refine start_noop_of_armed _ a t hr ?_ ?_
        · simp [mapHas, hf]
        · simp [mapHas, mapGet_mapSet_self]

/-- Witness for C6: on the concrete armed state reached by one start, a
second start is a no-op. -/
theorem start_idempotent_witness :
    ContentScheduler.start schedArmedA (some "a") = .ok (schedArmedA, []) :=
  start_idempotent schedRegA schedArmedA (some "a")
    [SchedEvent.armedTimer "a" 86400000, SchedEvent.syncTriggered "a" false] (by rfl)

/-- Claim C7 (amended): in every scheduler state reachable from either
constructor by the public registry operations, every id present in the
armed-timer map is also present in the fetcher map; and `removeFetcher`
applied to any non-empty id leaves that id absent from both maps, armed or
not. (For the empty-string id outside legacy mode, the claim as stated
fails: `stop("")` throws on the falsy id before the deletion, see the
counterexample.) -/
theorem scheduler_timer_invariant_amended (init : SchedulerState)
    (hinit : init = ContentScheduler.constructEmpty
      ∨ ∃ f i, init = ContentScheduler.constructLegacy f i)
    (ops : List SchedOp) (j id : String) (hid : id ≠ "") :
    (mapHas (ops.foldl applyOp init).schedulers j = true
      → mapHas (ops.foldl applyOp init).fetchers j = true)
      ∧ mapHas (applyOp (ops.foldl applyOp init) (SchedOp.removeFetcher id)).fetchers id
        = false
      ∧ mapHas (applyOp (ops.foldl applyOp init) (SchedOp.removeFetcher id)).schedulers id
        = false := by
  have hbase : SchedInv init := by
    rcases hinit with h | ⟨f, i, h⟩
    · rw [h]; exact schedInv_constructEmpty
    · rw [h]; exact schedInv_constructLegacy f i
  have hst : SchedInv (ops.foldl applyOp init) := schedInv_foldl ops init hbase
  have hrm := removeFetcher_removes (ops.foldl applyOp init) id hid hst
  exact ⟨fun hj => (hst j hj).1, hrm.1, hrm.2⟩

/-- Counterexample for C7 as stated: register the (legitimate) empty-string
id in a non-legacy scheduler, then remove it. `removeFetcher("")` calls
`stop("")`, which throws on the falsy id before the deletion is reached, so
the id is still present in the source map afterwards — contradicting
"after removeSource(id), id is absent from both the source map and the
armed-timer map". -/
theorem removeFetcher_empty_id_counterexample :
    mapHas (applyOp (applyOp ContentScheduler.constructEmpty
        (SchedOp.addFetcher "" cfgA)) (SchedOp.removeFetcher "")).fetchers "" = true := by
  rfl

/-- Witness for C7 (amended) on a concrete reachable state. -/
theorem scheduler_timer_invariant_witness :
    mapHas (applyOp (List.foldl applyOp ContentScheduler.constructEmpty
        [SchedOp.addFetcher "a" cfgA, SchedOp.start (some "a")])
        (SchedOp.removeFetcher "a")).fetchers "a" = false
      ∧ mapHas (applyOp (List.foldl applyOp ContentScheduler.constructEmpty
          [SchedOp.addFetcher "a" cfgA, SchedOp.start (some "a")])
          (SchedOp.removeFetcher "a")).schedulers "a" = false := by
  have h := scheduler_timer_invariant_amended ContentScheduler.constructEmpty (Or.inl rfl)
    [SchedOp.addFetcher "a" cfgA, SchedOp.start (some "a")] "a" "a" (by decide)
  exact ⟨h.2.1, h.2.2⟩

/-- Claim C8: `addFetcher` on an already-registered id updates that
fetcher's config in place by shallow merge — the updated entry is the old
fetcher with `updateConfig` applied, its first-sync state unchanged — it
creates no duplicate entry (the key list is unchanged), leaves every other
registered fetcher and the whole armed-timer map unchanged; and
`updateConfig`'s merge is field-wise: any field absent from the patch
retains its prior value. -/
theorem addFetcher_update_merge (st : SchedulerState) (id : String)
    (cfg : ContentFetcherConfig) (f : FetcherState) (old : ContentFetcherConfig)
    (p : ConfigPatch) (k : String) (h : mapGet st.fetchers id = some f) (hk : k ≠ id) :
    mapGet (ContentScheduler.addFetcher st id cfg).fetchers id
        = some (ContentFetcher.updateConfig f (patchOfConfig cfg))
      ∧ (ContentFetcher.updateConfig f (patchOfConfig cfg)).isFirstSync = f.isFirstSync
      ∧ mapKeys (ContentScheduler.addFetcher st id cfg).fetchers = mapKeys st.fetchers
      ∧ (ContentScheduler.addFetcher st id cfg).schedulers = st.schedulers
      ∧ mapGet (ContentScheduler.addFetcher st id cfg).fetchers k = mapGet st.fetchers k
      ∧ (p.domain = none → (mergeConfig old p).domain = old.domain)
      ∧ (p.installId = none → (mergeConfig old p).installId = old.installId)
      ∧ (p.targetDirectory = none
        → (mergeConfig old p).targetDirectory = old.targetDirectory) := by
  unfold ContentScheduler.addFetcher
  rw [h]
  refine ⟨mapGet_mapSet_self _ _ _, rfl,
    mapKeys_mapSet_of_has _ _ _ (by simp [mapHas, h]), rfl,
    mapGet_mapSet_ne _ _ _ _ hk, ?_, ?_, ?_⟩
  all_goals intro hp; simp [mergeConfig, hp]

/-- Witness for C8: updating id "a" with a different target directory. -/
theorem addFetcher_update_merge_witness :
    mapGet (ContentScheduler.addFetcher schedRegA "a" cfgB).fetchers "a"
        = some (ContentFetcher.updateConfig (ContentFetcher.construct cfgA)
            (patchOfConfig cfgB))
      ∧ mapKeys (ContentScheduler.addFetcher schedRegA "a" cfgB).fetchers
        = mapKeys schedRegA.fetchers
      ∧ (mergeConfig cfgA
          { domain := none, installId := none, targetDirectory := some "public" }).domain
        = cfgA.domain := by
  have h := addFetcher_update_merge schedRegA "a" cfgB (ContentFetcher.construct cfgA)
    cfgA { domain := none, installId := none, targetDirectory := some "public" } "b"
    (by rfl) (by decide)
  exact ⟨h.1, h.2.2.1, h.2.2.2.2.2.1 rfl⟩

/-- Counterexample for C9 as stated: on a concrete unarmed registered id,
`start` first arms the 24-hour timer and only then triggers the immediate
sync, and that sync is not awaited (fire-and-forget) — the effect list is
[armedTimer, syncTriggered(not awaited)], not an awaited sync followed by
arming. So "fires an immediate synchronous sync attempt and then arms the
timer, the immediate attempt completing before start returns" is false on
the code. -/
theorem start_order_counterexample :
    ContentScheduler.start schedRegA (some "a")
        = .ok (schedArmedA,
            [SchedEvent.armedTimer "a" 86400000, SchedEvent.syncTriggered "a" false])
      ∧ ([SchedEvent.armedTimer "a" 86400000, SchedEvent.syncTriggered "a" false]
          ≠ [SchedEvent.syncTriggered "a" true, SchedEvent.armedTimer "a" 86400000]) := by
  exact ⟨rfl, by decide⟩

/-- Claim C9 (amended): for every id that resolves to a registered fetcher
whose schedule is not yet armed, `start` arms the repeating timer at the
fixed 24-hour period (86400000 ms) first and then triggers one immediate
sync attempt that is not awaited — start returns without waiting for that
attempt to complete. -/
theorem start_arms_then_triggers_amended (st : SchedulerState) (a : Option String)
    (t : String) (f : FetcherState) (hr : ContentScheduler.resolveId st a = some t)
    (hf : mapGet st.fetchers t = some f) (hs : mapHas st.schedulers t = false) :
    ContentScheduler.start st a
      = .ok ({ st with
                schedulers := mapSet st.schedulers t st.nextHandle,
                nextHandle := st.nextHandle + 1 },
             [SchedEvent.armedTimer t 86400000, SchedEvent.syncTriggered t false]) := by
  unfold ContentScheduler.start
  rw [hr]
  simp [hf, hs]

/-- Witness for C9 (amended) at the concrete one-fetcher scheduler. -/
theorem start_arms_then_triggers_witness :
    ContentScheduler.start schedRegA (some "a")
      = .ok ({ schedRegA with
                schedulers := mapSet schedRegA.schedulers "a" schedRegA.nextHandle,
                nextHandle := schedRegA.nextHandle + 1 },
             [SchedEvent.armedTimer "a" 86400000, SchedEvent.syncTriggered "a" false]) :=
  start_arms_then_triggers_amended schedRegA (some "a") "a"
    (ContentFetcher.construct cfgA) (by rfl) (by rfl) (by rfl)

end Seotrove
